import Mathlib

/-!
Verification of the FRESCO HPC ETL pipeline (conte cluster stages).

This file gives a shallow embedding, in Lean 4, of the pure computational
cores of the pipeline stages:

* step-1 `hpc_transformer.py` — raw counter → metric-rate conversion
  (`process_block_file`, `process_cpu_file`) and the retrying downloader
  (`FileDownloader.download_file`, `download_folder_files`), together with
  the ETL-pipeline variant `http_extractor.py`;
* step-2 `consumer.py` — the chunked join/aggregate engine (`process_chunk`),
  `get_exit_status_description`, `parse_host_list`;
* step-2 `receiver.py` — the stage mover (`find_completed_files`,
  `transfer_file`) and its signal handling;
* step-2 `utils/ready_signal_creator.py` — `ReadySignalManager`
  (`get_signal_path`, `create_signal`, `check_status`);
* step-3 `consumer.py` — the cleanup pass (`transform_dataframe`:
  host-list regex pipeline and exitcode letter filter);
* step-3 `receiver.py` — `move_file_safely`.

DataFrame columns are modelled as fields of per-row structures, float
columns as rationals, timestamps as rationals (seconds), nullable columns
as `Option`, and the on-disk signal/file state as explicit record states.
Python exceptions are modelled with `Except`.
-/

/-! ## Exit-status description (step-2 `consumer.py`) and cleanup (step-3) -/

/-- Embeds `get_exit_status_description` from step-2 `consumer.py`.  The
polars expression maps an accounting `Exit_status` value (nullable integer)
to a status string: value 0 to "COMPLETED", any other non-null value `n` to
"FAILED:n", and null to "UNKNOWN" (a null comparison is falsy in the
`when/otherwise` chain, so null falls through to the `otherwise` branch). -/
def getExitStatusDescription : Option Int → String
  | none => "UNKNOWN"
  | some n => if n = 0 then "COMPLETED" else "FAILED:" ++ toString n

/-- Embeds the exitcode cleanup of `transform_dataframe` in step-3
`consumer.py`: `str.replace_all(r"[^A-Za-z]", "")` removes every character
that is not an ASCII letter. -/
def stripNonLetters (s : String) : String :=
  String.mk (s.data.filter fun c => (('A' ≤ c && c ≤ 'Z') || ('a' ≤ c && c ≤ 'z')))

/-- C5: the aggregate stage maps `Exit_status` 0 to "COMPLETED", any non-null
non-zero value n to "FAILED:n", and null to "UNKNOWN"; the step-3 cleanup
strips non-letter characters, so the statuses 0, 7 and null map finally to
"COMPLETED", "FAILED" and "UNKNOWN". -/
theorem exitStatusMapping :
    getExitStatusDescription (some 0) = "COMPLETED" ∧
    getExitStatusDescription none = "UNKNOWN" ∧
    (∀ n : Int, n ≠ 0 → getExitStatusDescription (some n) = "FAILED:" ++ toString n) ∧
    getExitStatusDescription (some 7) = "FAILED:7" ∧
    stripNonLetters (getExitStatusDescription (some 0)) = "COMPLETED" ∧
    stripNonLetters (getExitStatusDescription (some 7)) = "FAILED" ∧
    stripNonLetters (getExitStatusDescription none) = "UNKNOWN" := by
  refine ⟨rfl, rfl, ?_, by decide, by decide, by decide, by decide⟩
  intro n hn
  simp [getExitStatusDescription, hn]

/-- Witness for `exitStatusMapping`: the hypothesis `n ≠ 0` discharged at 7. -/
theorem exitStatusMappingWitness :
    (7 : Int) ≠ 0 ∧ getExitStatusDescription (some 7) = "FAILED:" ++ toString (7 : Int) :=
  ⟨by decide, exitStatusMapping.2.2.1 7 (by decide)⟩

/-! ## Ready-signal manager (step-2 `utils/ready_signal_creator.py`) -/

/-- Embeds the `JobStatus` enumeration of `ready_signal_creator.py`. -/
inductive JobStatus
  | unknown
  | ready
  | processing
  | complete
  | failed
deriving DecidableEq, Repr

/-- The `.value` attribute of each `JobStatus` member. -/
def JobStatus.value : JobStatus → String
  | .unknown => "unknown"
  | .ready => "ready"
  | .processing => "processing"
  | .complete => "complete"
  | .failed => "failed"

/-- Dynamically-typed Python argument value, as passed to
`ReadySignalManager.get_signal_path`: `None`, a string, or (when a caller
passes a status positionally into the `day` parameter) a `JobStatus`
member. -/
inductive PyVal
  | pyNone
  | pyStr (s : String)
  | pyStatus (j : JobStatus)
deriving DecidableEq, Repr

/-- Python runtime errors relevant to the embedded code. -/
inductive PyErr
  | typeError
deriving DecidableEq, Repr

/-- Embeds Python `len(x)`: defined for strings, raises `TypeError` on
`None` and on a `JobStatus` member (no `__len__`). -/
def pyLen : PyVal → Except PyErr Nat
  | .pyStr s => .ok s.length
  | .pyNone => .error .typeError
  | .pyStatus _ => .error .typeError

/-- Embeds Python f-string rendering of a value (`f"...{x}..."`). -/
def pyFmt : PyVal → String
  | .pyNone => "None"
  | .pyStr s => s
  | .pyStatus j => "JobStatus." ++ j.value

/-- Embeds `ReadySignalManager.get_signal_path(year, month, day, status)`.
The body first converts a `JobStatus` in the `status` slot to its string
value, zero-pads a one-character month, then, when `day` is not `None`,
evaluates `len(day)` (raising `TypeError` unless `day` is a string) and
zero-pads it, and finally returns `ready_dir / f"{date_str}.{status}"`. -/
def getSignalPath (readyDir year month : String) (day status0 : PyVal) :
    Except PyErr String := do
  let status := match status0 with
    | .pyStatus j => PyVal.pyStr j.value
    | v => v
  let month2 := if month.length = 1 then "0" ++ month else month
  let dateStr ← match day with
    | .pyNone => pure (year ++ "-" ++ month2)
    | d => do
        let n ← pyLen d
        let d2 := if n = 1 then "0" ++ pyFmt d else pyFmt d
        pure (year ++ "-" ++ month2 ++ "-" ++ d2)
  pure (readyDir ++ "/" ++ dateStr ++ "." ++ pyFmt status)

/-- Embeds `ReadySignalManager.check_status(year, month)`.  The source calls
`self.get_signal_path(year, month, JobStatus.COMPLETE)` (and likewise for
FAILED, PROCESSING, READY): the status is passed positionally into the
`day` parameter while `status` stays `None`.  `signalsPresent` models the
set of signal-file paths that exist on disk. -/
def checkStatus (signalsPresent : List String) (readyDir year month : String) :
    Except PyErr JobStatus := do
  let completeFile ← getSignalPath readyDir year month (.pyStatus .complete) .pyNone
  let failedFile ← getSignalPath readyDir year month (.pyStatus .failed) .pyNone
  let processingFile ← getSignalPath readyDir year month (.pyStatus .processing) .pyNone
  let readyFile ← getSignalPath readyDir year month (.pyStatus .ready) .pyNone
  if completeFile ∈ signalsPresent then pure .complete
  else if failedFile ∈ signalsPresent then pure .failed
  else if processingFile ∈ signalsPresent then pure .processing
  else if readyFile ∈ signalsPresent then pure .ready
  else pure .unknown

/-- C10: the status query never resolves any priority: because
`check_status` passes each `JobStatus` member positionally into the `day`
parameter of `get_signal_path`, the call `len(day)` raises `TypeError` for
every input, whatever signal files exist; in particular a key holding both
`complete` and `failed` signals is not reported complete. -/
theorem checkStatusRaisesTypeError :
    ∀ (signalsPresent : List String) (readyDir year month : String),
      checkStatus signalsPresent readyDir year month = .error .typeError := by
  intro signalsPresent readyDir year month
  simp [checkStatus, getSignalPath, pyLen, Bind.bind, Except.bind]

/-- Witness for `checkStatusRaisesTypeError` at a concrete directory state
holding both a complete and a failed signal for 2016-11. -/
theorem checkStatusRaisesTypeErrorWitness :
    checkStatus ["signals/2016-11.complete", "signals/2016-11.failed"]
      "signals" "2016" "11" = .error .typeError :=
  checkStatusRaisesTypeError ["signals/2016-11.complete", "signals/2016-11.failed"]
    "signals" "2016" "11"

/-! ## Signal-file creation (step-2 `ready_signal_creator.py` and `receiver.py`) -/

/-- Elementary filesystem operations performed by the signal-writing code. -/
inductive FsOp
  | openTrunc (path : String)
  | writeAll (path : String) (content : String)
  | renameTo (src dst : String)
  | touch (path : String)
deriving DecidableEq, Repr

/-- Whether an operation is a rename. -/
def FsOp.isRenameOp : FsOp → Bool
  | .renameTo _ _ => true
  | _ => false

/-- Embeds the write sequence of `ReadySignalManager.create_signal`: the
source executes `with open(signal_file, 'w') as f: f.write(message)` on the
final `<key>.<status>` path — a create/truncate of the final path followed
by the content write, with no temporary file and no rename. -/
def createSignalOps (signalFile message : String) : List FsOp :=
  [.openTrunc signalFile, .writeAll signalFile message]

/-- Embeds the transferred-signal creation in step-2 `receiver.py`
(`transferred_signal.touch()`): a direct `touch` of the final path. -/
def touchTransferredOps (signalFile : String) : List FsOp :=
  [.touch signalFile]

/-- Content of `path` after executing one operation, given the previous
content (`none` = file absent). -/
def FsOp.applyAt (path : String) (st : Option String) : FsOp → Option String
  | .openTrunc p => if p = path then some "" else st
  | .writeAll p c => if p = path then some c else st
  | .renameTo _ dst => if dst = path then some "" else st
  | .touch p => if p = path then some "" else st

/-- All states of `path` observable while a sequence of operations runs:
the initial state and the state after each operation. -/
def observableStates (path : String) (init : Option String) : List FsOp → List (Option String)
  | [] => [init]
  | op :: ops => init :: observableStates path (op.applyAt path init) ops

/-- C8 counterexample: the run of `create_signal` for key `2016-11`, status
`complete`, message "done" exposes the final signal path in a partially
written state (the file exists with empty content before the message is
written), so the transition is not atomic and, in particular, is not
performed through a temporary file plus rename. -/
theorem createSignalPartialStateObservable :
    some "" ∈ observableStates "signals/2016-11.complete" none
        (createSignalOps "signals/2016-11.complete" "done") ∧
    (some "" : Option String) ≠ none ∧
    (some "" : Option String) ≠ some "done" := by
  refine ⟨?_, by decide, by decide⟩
  simp [observableStates, createSignalOps, FsOp.applyAt]

/-- C8 amended: `create_signal` writes the signal content directly to the
final `<key>.<status>` path (no operation in its sequence is a rename), and
for any non-empty message the final path passes through the intermediate
state "exists but empty", which is neither absent nor the completed
content; the step-2 receiver likewise creates `transferred` signals by a
direct `touch` of the final path, with no rename. -/
theorem createSignalDirectWrite :
    (∀ path message : String,
      ((createSignalOps path message).all fun op => !op.isRenameOp) = true) ∧
    (∀ path message : String, message ≠ "" →
      some "" ∈ observableStates path none (createSignalOps path message) ∧
      (some "" : Option String) ≠ none ∧ some "" ≠ some message) ∧
    (∀ path : String,
      ((touchTransferredOps path).all fun op => !op.isRenameOp) = true) := by
  refine ⟨fun path message => by simp [createSignalOps, FsOp.isRenameOp], ?_,
    fun path => by simp [touchTransferredOps, FsOp.isRenameOp]⟩
  intro path message hmsg
  refine ⟨?_, by simp, by simp [Ne.symm hmsg]⟩
  simp [observableStates, createSignalOps, FsOp.applyAt]

/-- Witness for `createSignalDirectWrite`: its hypothesis discharged at the
concrete message "done" and the concrete 2016-11 complete-signal path. -/
theorem createSignalDirectWriteWitness :
    ("done" : String) ≠ "" ∧
    (some "" ∈ observableStates "signals/2016-11.complete" none
        (createSignalOps "signals/2016-11.complete" "done") ∧
      (some "" : Option String) ≠ none ∧ some "" ≠ some "done") :=
  ⟨by decide, createSignalDirectWrite.2.1 "signals/2016-11.complete" "done" (by decide)⟩

/-! ## Raw→metric transformers (step-1 `hpc_transformer.py`)

The models start from the parsed, validated rows: the CSV reading, numeric
coercion and dropping of rows with null required fields or unparseable
timestamps are the preamble shared by the transformers, and rows surviving
it are exactly the inputs below.  Timestamps are rationals (seconds), float
columns rationals. -/

/-- One validated row of `cpu.csv`: seven jiffy counters per
(jobID, node, device = core, timestamp). -/
structure CpuRow where
  jobID : String
  node : String
  device : String
  ts : ℚ
  user : ℚ
  nice : ℚ
  system : ℚ
  idle : ℚ
  iowait : ℚ
  irq : ℚ
  softirq : ℚ
deriving DecidableEq, Repr

/-- One validated row of `block.csv`. -/
structure BlockRow where
  jobID : String
  node : String
  device : String
  ts : ℚ
  rdSectors : ℚ
  wrSectors : ℚ
deriving DecidableEq, Repr

/-- One row of the unified long-form output schema
(Job Id, Host, Event, Value, Units, Timestamp). -/
structure MetricRecord where
  jobId : String
  host : String
  event : String
  value : ℚ
  units : String
  ts : ℚ
deriving DecidableEq, Repr

/-- Insert a row into a timestamp-sorted list (ascending). -/
def insertByTs {α : Type} (tsOf : α → ℚ) (r : α) : List α → List α
  | [] => [r]
  | x :: xs => if tsOf x ≤ tsOf r then x :: insertByTs tsOf r xs else r :: x :: xs

/-- Sort a list of rows ascending by timestamp (`sort_values` on the
timestamp after the grouping keys: within one series only the timestamp
matters). -/
def sortByTs {α : Type} (tsOf : α → ℚ) (rows : List α) : List α :=
  rows.foldr (insertByTs tsOf) []

/-- Consecutive pairs (previous sample, current sample) of a list, the
source of `groupby(...).diff()`: the first element of a series has no
previous sample and so produces no pair. -/
def consecPairs {α : Type} : List α → List (α × α)
  | [] => []
  | [_] => []
  | a :: b :: rest => (a, b) :: consecPairs (b :: rest)

/-- The distinct (jobID, node, device) series keys of a cpu.csv input. -/
def cpuSeriesKeys (rows : List CpuRow) : List (String × String × String) :=
  (rows.map fun r => (r.jobID, r.node, r.device)).dedup

/-- The rows of one (jobID, node, device) series, ascending by timestamp. -/
def cpuSeries (rows : List CpuRow) (k : String × String × String) : List CpuRow :=
  sortByTs (fun r => r.ts) (rows.filter fun r => decide ((r.jobID, r.node, r.device) = k))

/-- Per-core deltas of one consecutive sample pair: one delta per jiffy
column plus their sum (`total_jiffies_core_delta`). -/
structure CpuDelta where
  jobID : String
  node : String
  ts : ℚ
  dUser : ℚ
  dNice : ℚ
  dSystem : ℚ
  dIdle : ℚ
  dIowait : ℚ
  dIrq : ℚ
  dSoftirq : ℚ
deriving DecidableEq, Repr

/-- Sum of the seven per-column deltas. -/
def CpuDelta.dTotal (d : CpuDelta) : ℚ :=
  d.dUser + d.dNice + d.dSystem + d.dIdle + d.dIowait + d.dIrq + d.dSoftirq

/-- All per-core deltas of the input: for every series, the differences of
consecutive samples in ascending timestamp order. -/
def cpuCoreDeltas (rows : List CpuRow) : List CpuDelta :=
  ((cpuSeriesKeys rows).map fun k =>
    (consecPairs (cpuSeries rows k)).map fun pc =>
      { jobID := pc.2.jobID, node := pc.2.node, ts := pc.2.ts
        dUser := pc.2.user - pc.1.user
        dNice := pc.2.nice - pc.1.nice
        dSystem := pc.2.system - pc.1.system
        dIdle := pc.2.idle - pc.1.idle
        dIowait := pc.2.iowait - pc.1.iowait
        dIrq := pc.2.irq - pc.1.irq
        dSoftirq := pc.2.softirq - pc.1.softirq }).flatten

/-- The `valid_delta_mask` of `process_cpu_file`: user delta ≥ 0, nice
delta ≥ 0 and total-jiffies delta > 0 (a first sample has no delta at all
and is already excluded by `consecPairs`). -/
def validCpuDeltas (rows : List CpuRow) : List CpuDelta :=
  (cpuCoreDeltas rows).filter fun d =>
    decide (0 ≤ d.dUser ∧ 0 ≤ d.dNice ∧ 0 < d.dTotal)

/-- The distinct node-level aggregation keys (jobID, node, timestamp) of
the valid deltas. -/
def cpuNodeKeys (rows : List CpuRow) : List (String × String × ℚ) :=
  ((validCpuDeltas rows).map fun d => (d.jobID, d.node, d.ts)).dedup

/-- Node-level sums of the valid core deltas sharing one
(jobID, node, timestamp) key. -/
def cpuNodeSums (rows : List CpuRow) (k : String × String × ℚ) : ℚ × ℚ × ℚ :=
  let g := (validCpuDeltas rows).filter fun d => decide ((d.jobID, d.node, d.ts) = k)
  ((g.map fun d => d.dUser).sum, (g.map fun d => d.dNice).sum,
    (g.map fun d => d.dTotal).sum)

/-- Clip to the interval [0, 100] (`Series.clip(0.0, 100.0)`). -/
def clip0100 (x : ℚ) : ℚ := min 100 (max 0 x)

/-- The cpuuser percentage of one node-level key: `(user_sum + nice_sum)
/ total_sum × 100` when the total is positive, 0 otherwise (`np.where`),
then clipped to [0, 100]. -/
def cpuNodeValue (rows : List CpuRow) (k : String × String × ℚ) : ℚ :=
  let s := cpuNodeSums rows k
  clip0100 (if 0 < s.2.2 then (s.1 + s.2.1) / s.2.2 * 100 else 0)

/-- Embeds `process_cpu_file`: one output row per node-level key passing
the final validation mask (user sum ≥ 0, nice sum ≥ 0, total sum > 0,
value ≥ 0), with event "cpuuser" and units "CPU %". -/
def processCpuFile (rows : List CpuRow) : List MetricRecord :=
  ((cpuNodeKeys rows).filter fun k =>
    let s := cpuNodeSums rows k
    decide (0 ≤ s.1 ∧ 0 ≤ s.2.1 ∧ 0 < s.2.2 ∧ 0 ≤ cpuNodeValue rows k)).map
    fun k =>
      { jobId := k.1, host := k.2.1, event := "cpuuser",
        value := cpuNodeValue rows k, units := "CPU %", ts := k.2.2 }

/-- The distinct (jobID, node, device) series keys of a block.csv input. -/
def blockSeriesKeys (rows : List BlockRow) : List (String × String × String) :=
  (rows.map fun r => (r.jobID, r.node, r.device)).dedup

/-- The rows of one block series, ascending by timestamp. -/
def blockSeries (rows : List BlockRow) (k : String × String × String) : List BlockRow :=
  sortByTs (fun r => r.ts) (rows.filter fun r => decide ((r.jobID, r.node, r.device) = k))

/-- Per-device delta of one consecutive sample pair of a block series:
elapsed seconds and sector-count difference of `rd_sectors + wr_sectors`. -/
structure BlockDelta where
  jobID : String
  node : String
  ts : ℚ
  timeDelta : ℚ
  sectorDelta : ℚ
deriving DecidableEq, Repr

/-- All per-device block deltas of the input. -/
def blockDeltas (rows : List BlockRow) : List BlockDelta :=
  ((blockSeriesKeys rows).map fun k =>
    (consecPairs (blockSeries rows k)).map fun pc =>
      { jobID := pc.2.jobID, node := pc.2.node, ts := pc.2.ts
        timeDelta := pc.2.ts - pc.1.ts
        sectorDelta := (pc.2.rdSectors + pc.2.wrSectors)
          - (pc.1.rdSectors + pc.1.wrSectors) }).flatten

/-- The `valid_rate_mask` of `process_block_file`: elapsed time ≥ 0.1 s and
sector delta ≥ 0 (first samples are already excluded). -/
def validBlockDeltas (rows : List BlockRow) : List BlockDelta :=
  (blockDeltas rows).filter fun d =>
    decide ((1 : ℚ) / 10 ≤ d.timeDelta ∧ 0 ≤ d.sectorDelta)

/-- The device rate of a valid delta: `sector_delta × 512 / time_delta
/ 2^30` GB/s, clipped below at 0 (`clip(lower=0)`). -/
def BlockDelta.deviceRate (d : BlockDelta) : ℚ :=
  max 0 (d.sectorDelta * 512 / d.timeDelta / 2 ^ 30)

/-- The distinct node-level keys (jobID, node, timestamp) of the valid
block deltas. -/
def blockNodeKeys (rows : List BlockRow) : List (String × String × ℚ) :=
  ((validBlockDeltas rows).map fun d => (d.jobID, d.node, d.ts)).dedup

/-- The node-level block value: sum of the device rates of the valid
deltas sharing one (jobID, node, timestamp) key. -/
def blockNodeValue (rows : List BlockRow) (k : String × String × ℚ) : ℚ :=
  (((validBlockDeltas rows).filter fun d =>
    decide ((d.jobID, d.node, d.ts) = k)).map fun d => d.deviceRate).sum

/-- Embeds `process_block_file`: one output row per node-level key, with
event "block" and units "GB/s". -/
def processBlockFile (rows : List BlockRow) : List MetricRecord :=
  (blockNodeKeys rows).map fun k =>
    { jobId := k.1, host := k.2.1, event := "block",
      value := blockNodeValue rows k, units := "GB/s", ts := k.2.2 }

/-- Helper: a list with at most one element has no consecutive pairs. -/
theorem consecPairs_eq_nil {α : Type} {l : List α} (h : l.length ≤ 1) :
    consecPairs l = [] := by
  match l with
  | [] => rfl
  | [_] => rfl
  | a :: b :: rest => simp at h

/-- C3: every row emitted by `process_cpu_file` carries event "cpuuser" and
units "CPU %", and its value — the node-level (user+nice)/total × 100 over
the valid core deltas, clipped to [0, 100] — satisfies 0 ≤ v ≤ 100. -/
theorem cpuuserWithinBounds :
    ∀ (rows : List CpuRow) (r : MetricRecord), r ∈ processCpuFile rows →
      r.event = "cpuuser" ∧ r.units = "CPU %" ∧
      r.value = cpuNodeValue rows (r.jobId, r.host, r.ts) ∧
      0 ≤ r.value ∧ r.value ≤ 100 := by
  intro rows r hr
  obtain ⟨k, hk, rfl⟩ := List.mem_map.mp hr
  refine ⟨rfl, rfl, rfl, ?_, ?_⟩
  · exact le_min (by norm_num) (le_max_left 0 _)
  · exact min_le_left _ _

/-- Concrete cpu.csv input: two cores of node n1 of job job1 sampled at
t = 0 s and t = 30 s (the two-core scenario of the specification). -/
def cpuDemoRows : List CpuRow :=
  [ { jobID := "job1", node := "n1", device := "c0", ts := 0,
      user := 100, nice := 10, system := 20, idle := 900,
      iowait := 0, irq := 0, softirq := 0 },
    { jobID := "job1", node := "n1", device := "c0", ts := 30,
      user := 130, nice := 10, system := 25, idle := 910,
      iowait := 0, irq := 0, softirq := 0 },
    { jobID := "job1", node := "n1", device := "c1", ts := 0,
      user := 50, nice := 0, system := 10, idle := 950,
      iowait := 0, irq := 0, softirq := 0 },
    { jobID := "job1", node := "n1", device := "c1", ts := 30,
      user := 80, nice := 0, system := 12, idle := 968,
      iowait := 0, irq := 0, softirq := 0 } ]

/-- Witness for `cpuuserWithinBounds`: on `cpuDemoRows` the engine emits the
node-level row with value (30+30+0+0)/(45+50) × 100 = 1200/19, and the
theorem applies to it. -/
theorem cpuuserWithinBoundsWitness :
    ({ jobId := "job1", host := "n1", event := "cpuuser", value := 1200 / 19,
       units := "CPU %", ts := 30 } : MetricRecord) ∈ processCpuFile cpuDemoRows ∧
    (0 : ℚ) ≤ 1200 / 19 ∧ (1200 / 19 : ℚ) ≤ 100 := by
  have he : processCpuFile cpuDemoRows =
      [ { jobId := "job1", host := "n1", event := "cpuuser", value := 1200 / 19,
          units := "CPU %", ts := 30 } ] := by
    norm_num [processCpuFile, cpuNodeKeys, cpuNodeSums, cpuNodeValue, validCpuDeltas,
      cpuCoreDeltas, cpuSeriesKeys, cpuSeries, sortByTs, insertByTs, consecPairs,
      clip0100, CpuDelta.dTotal, cpuDemoRows, List.dedup_cons_of_mem,
      List.dedup_cons_of_not_mem, List.filter]
  have h : ({ jobId := "job1", host := "n1", event := "cpuuser", value := 1200 / 19,
              units := "CPU %", ts := 30 } : MetricRecord) ∈ processCpuFile cpuDemoRows := by
    rw [he]
    exact List.mem_singleton_self _
  have h2 := cpuuserWithinBounds cpuDemoRows _ h
  exact ⟨h, h2.2.2.2.1, h2.2.2.2.2⟩

/-- C4: every row emitted by `process_block_file` carries event "block" and
units "GB/s" and a non-negative value equal to the sum of the valid device
rates of its (jobID, node, timestamp) key; and an input in which every
(jobID, node, device) series holds a single sample emits nothing (a first
sample has no prior sample, hence no rate). -/
theorem blockRateProps :
    (∀ (rows : List BlockRow) (r : MetricRecord), r ∈ processBlockFile rows →
      r.event = "block" ∧ r.units = "GB/s" ∧
      r.value = blockNodeValue rows (r.jobId, r.host, r.ts) ∧ 0 ≤ r.value) ∧
    (∀ rows : List BlockRow,
      (∀ k ∈ blockSeriesKeys rows, (blockSeries rows k).length ≤ 1) →
      processBlockFile rows = []) := by
  constructor
  · intro rows r hr
    obtain ⟨k, hk, rfl⟩ := List.mem_map.mp hr
    refine ⟨rfl, rfl, rfl, ?_⟩
    refine List.sum_nonneg ?_
    intro x hx
    obtain ⟨d, hd, rfl⟩ := List.mem_map.mp hx
    exact le_max_left 0 _
  · intro rows h
    have hd : blockDeltas rows = [] := by
      rw [blockDeltas, List.flatten_eq_nil_iff]
      intro l hl
      obtain ⟨k, hk, rfl⟩ := List.mem_map.mp hl
      rw [consecPairs_eq_nil (h k hk)]
      rfl
    simp [processBlockFile, blockNodeKeys, validBlockDeltas, hd]

/-- Concrete block.csv input: devices sda and sdb of node n2 of job job2
sampled at t = 0 s and t = 10 s, plus the empty-series check input. -/
def blockDemoRows : List BlockRow :=
  [ { jobID := "job2", node := "n2", device := "sda", ts := 0,
      rdSectors := 0, wrSectors := 0 },
    { jobID := "job2", node := "n2", device := "sda", ts := 10,
      rdSectors := 2048000, wrSectors := 0 },
    { jobID := "job2", node := "n2", device := "sdb", ts := 0,
      rdSectors := 0, wrSectors := 0 },
    { jobID := "job2", node := "n2", device := "sdb", ts := 10,
      rdSectors := 0, wrSectors := 1024000 } ]

/-- Witness for `blockRateProps`: on `blockDemoRows`, the node-level row of
(job2, n2, t = 10) has value 25/256 + 25/512 = 75/512 GB/s and the bound
applies; and the single-sample input emits nothing. -/
theorem blockRatePropsWitness :
    (({ jobId := "job2", host := "n2", event := "block", value := 75 / 512,
        units := "GB/s", ts := 10 } : MetricRecord) ∈ processBlockFile blockDemoRows ∧
      (0 : ℚ) ≤ 75 / 512) ∧
    processBlockFile [{ jobID := "job2", node := "n2", device := "sda", ts := 0,
                        rdSectors := 0, wrSectors := 0 }] = [] := by
  constructor
  · have he : processBlockFile blockDemoRows =
        [ { jobId := "job2", host := "n2", event := "block", value := 75 / 512,
            units := "GB/s", ts := 10 } ] := by
      norm_num [processBlockFile, blockNodeKeys, blockNodeValue, validBlockDeltas,
        blockDeltas, blockSeriesKeys, blockSeries, sortByTs, insertByTs, consecPairs,
        BlockDelta.deviceRate, blockDemoRows, List.dedup_cons_of_mem,
        List.dedup_cons_of_not_mem, List.filter]
    have h : ({ jobId := "job2", host := "n2", event := "block", value := 75 / 512,
                units := "GB/s", ts := 10 } : MetricRecord) ∈ processBlockFile blockDemoRows := by
      rw [he]
      exact List.mem_singleton_self _
    exact ⟨h, (blockRateProps.1 blockDemoRows _ h).2.2.2⟩
  · refine blockRateProps.2 _ ?_
    intro k hk
    norm_num [blockSeriesKeys] at hk
    subst hk
    norm_num [blockSeries, sortByTs, insertByTs, List.filter]

/-! ## Join/aggregate engine (step-2 `consumer.py`, `process_chunk` and
`process_ts_file_in_parallel`)

The model covers the join keys, the job time window, the minute bucketing
and the per-event value aggregation of `process_chunk`; the job-metadata
columns carried verbatim from the accounting row (and transformed by
`convert_walltime_to_seconds`, `get_exit_status_description`,
`parse_host_list`) are modelled by those functions separately. -/

/-- One row of a step-2 metric input chunk (columns Job Id, Host, Event,
Value, Timestamp), the timestamp in whole seconds. -/
structure TsRow where
  jobId : String
  host : String
  event : String
  value : ℚ
  ts : ℕ
deriving DecidableEq, Repr

/-- One job-accounting row as join partner: the join key and the job
window `start_time`/`end_time` (seconds). -/
structure JobRow where
  jobID : String
  startTime : ℕ
  endTime : ℕ
deriving DecidableEq, Repr

/-- One aggregated output row of `process_chunk`: the (jid, host, minute)
key and the six per-event value columns (null when unobserved). -/
structure AggRow where
  jid : String
  host : String
  time : ℕ
  valueCpuuser : Option ℚ
  valueGpu : Option ℚ
  valueMemused : Option ℚ
  valueMemusedMinusDiskcache : Option ℚ
  valueNfs : Option ℚ
  valueBlock : Option ℚ
deriving DecidableEq, Repr

/-- The value column of an `AggRow` holding a given event. -/
def AggRow.valueOf (r : AggRow) : String → Option ℚ
  | "cpuuser" => r.valueCpuuser
  | "gpu" => r.valueGpu
  | "memused" => r.valueMemused
  | "memused_minus_diskcache" => r.valueMemusedMinusDiskcache
  | "nfs" => r.valueNfs
  | "block" => r.valueBlock
  | _ => none

/-- Embeds the Job Id normalization of `process_chunk`: a purely numeric
id gets the prefix "job"; any other id is lowercased. -/
def normalizeJobId (s : String) : String :=
  if !s.data.isEmpty && s.data.all Char.isDigit then "job" ++ s else s.toLower

/-- The chunk after Job Id normalization. -/
def normalizeChunk (chunk : List TsRow) : List TsRow :=
  chunk.map fun t => { t with jobId := normalizeJobId t.jobId }

/-- The inner join of the normalized chunk with the jobs table on the job
id: all (metric row, job row) pairs with equal key. -/
def joinChunk (chunk : List TsRow) (jobs : List JobRow) : List (TsRow × JobRow) :=
  ((normalizeChunk chunk).map fun t =>
    (jobs.filter fun j => decide (j.jobID = t.jobId)).map fun j => (t, j)).flatten

/-- The join restricted to the job execution window:
`start_time ≤ Timestamp ≤ end_time` (boundaries included). -/
def inWindow (chunk : List TsRow) (jobs : List JobRow) : List (TsRow × JobRow) :=
  (joinChunk chunk jobs).filter fun tj =>
    decide (tj.2.startTime ≤ tj.1.ts ∧ tj.1.ts ≤ tj.2.endTime)

/-- Minute truncation of a timestamp (`dt.truncate("1m")`). -/
def minuteFloor (ts : ℕ) : ℕ := ts / 60 * 60

/-- The distinct (Job Id, Host, time) combinations of the windowed join —
`unique_combinations` in the source. -/
def chunkCombos (chunk : List TsRow) (jobs : List JobRow) :
    List (String × String × ℕ) :=
  ((inWindow chunk jobs).map fun tj =>
    (tj.1.jobId, tj.1.host, minuteFloor tj.1.ts)).dedup

/-- The values observed for one (Job Id, Host, time) combination and one
event in the windowed join. -/
def observedValues (chunk : List TsRow) (jobs : List JobRow)
    (k : String × String × ℕ) (event : String) : List ℚ :=
  ((inWindow chunk jobs).filter fun tj =>
    decide ((tj.1.jobId, tj.1.host, minuteFloor tj.1.ts) = k ∧
      tj.1.event = event)).map fun tj => tj.1.value

/-- Arithmetic mean of a value list, null when empty (`Series.mean`). -/
def listMean (l : List ℚ) : Option ℚ :=
  if l.isEmpty then none else some (l.sum / l.length)

/-- Embeds `process_chunk`: one output row per distinct (Job Id, Host,
time) combination, each value column the mean of the rows of that
combination holding the event, null when the event is unobserved. -/
def processChunk (chunk : List TsRow) (jobs : List JobRow) : List AggRow :=
  (chunkCombos chunk jobs).map fun k =>
    { jid := k.1, host := k.2.1, time := k.2.2
      valueCpuuser := listMean (observedValues chunk jobs k "cpuuser")
      valueGpu := listMean (observedValues chunk jobs k "gpu")
      valueMemused := listMean (observedValues chunk jobs k "memused")
      valueMemusedMinusDiskcache :=
        listMean (observedValues chunk jobs k "memused_minus_diskcache")
      valueNfs := listMean (observedValues chunk jobs k "nfs")
      valueBlock := listMean (observedValues chunk jobs k "block") }

/-- Consecutive row ranges of `chunkSize` rows (`slice(start_row,
chunk_size)` over the input file), with fuel bounded by the row count. -/
def fileChunksAux (chunkSize : ℕ) : ℕ → List TsRow → List (List TsRow)
  | 0, _ => []
  | _, [] => []
  | fuel + 1, rows => rows.take chunkSize :: fileChunksAux chunkSize fuel (rows.drop chunkSize)

/-- The chunking of `process_ts_file_in_parallel`: the file is cut into
consecutive row ranges of `chunkSize` rows. -/
def fileChunks (chunkSize : ℕ) (rows : List TsRow) : List (List TsRow) :=
  fileChunksAux chunkSize rows.length rows

/-- The rows a whole run produces for one input file: each chunk is
processed by `process_chunk` independently and the per-day accumulator
concatenates the chunk outputs (no deduplication happens across chunks). -/
def runOutput (chunkSize : ℕ) (rows : List TsRow) (jobs : List JobRow) : List AggRow :=
  ((fileChunks chunkSize rows).map fun c => processChunk c jobs).flatten

/-- Helper: a mean is null exactly when no value was observed. -/
theorem listMean_eq_none {l : List ℚ} : listMean l = none ↔ l = [] := by
  cases l <;> simp [listMean]

/-- C1 amended: within one processed chunk the output rows of
`process_chunk` have pairwise-distinct (jid, host, time) keys, and each
metric value column is null exactly when the chunk holds no joined
in-window row with that key and event; across the chunks of a run no
deduplication happens, so run-level uniqueness fails when the rows of one
(jid, host, minute) triple straddle a chunk boundary. -/
theorem aggUniquePerChunk :
    (∀ (chunk : List TsRow) (jobs : List JobRow),
      (processChunk chunk jobs).Pairwise
        fun a b => ¬(a.jid = b.jid ∧ a.host = b.host ∧ a.time = b.time)) ∧
    (∀ (chunk : List TsRow) (jobs : List JobRow) (r : AggRow),
      r ∈ processChunk chunk jobs →
      ∀ e ∈ ["cpuuser", "gpu", "memused", "memused_minus_diskcache", "nfs", "block"],
        (r.valueOf e = none ↔
          observedValues chunk jobs (r.jid, r.host, r.time) e = [])) := by
  constructor
  · intro chunk jobs
    rw [processChunk, List.pairwise_map]
    refine List.Pairwise.imp ?_ (List.nodup_dedup _)
    intro a b hab hcontra
    exact hab (Prod.ext hcontra.1 (Prod.ext hcontra.2.1 hcontra.2.2))
  · intro chunk jobs r hr e he
    obtain ⟨k, hk, rfl⟩ := List.mem_map.mp hr
    simp only [List.mem_cons, List.not_mem_nil, or_false] at he
    rcases he with rfl | rfl | rfl | rfl | rfl | rfl <;> exact listMean_eq_none

/-- Concrete jobs table: one job with window [0 s, 120 s]. -/
def aggDemoJobs : List JobRow := [{ jobID := "job1", startTime := 0, endTime := 120 }]

/-- Concrete metric input: two rows of the same (job, host, minute) bucket
holding different events, at 10 s and 20 s. -/
def aggDemoRows : List TsRow :=
  [ { jobId := "1", host := "h1", event := "cpuuser", value := 50, ts := 10 },
    { jobId := "1", host := "h1", event := "block", value := 1, ts := 20 } ]

/-- The single aggregated row `process_chunk` produces when both rows of
`aggDemoRows` land in one chunk. -/
def aggDemoRow0 : AggRow :=
  { jid := "job1", host := "h1", time := 0, valueCpuuser := some 50,
    valueGpu := none, valueMemused := none, valueMemusedMinusDiskcache := none,
    valueNfs := none, valueBlock := some 1 }

/-- Witness for `aggUniquePerChunk`: its membership and event hypotheses
discharged on `aggDemoRows` processed as a single chunk. -/
theorem aggUniquePerChunkWitness :
    aggDemoRow0 ∈ processChunk aggDemoRows aggDemoJobs ∧
    (aggDemoRow0.valueOf "cpuuser" = none ↔
      observedValues aggDemoRows aggDemoJobs
        (aggDemoRow0.jid, aggDemoRow0.host, aggDemoRow0.time) "cpuuser" = []) := by
  have hn : normalizeJobId "1" = "job1" := by decide
  have he : processChunk aggDemoRows aggDemoJobs = [aggDemoRow0] := by
    simp [processChunk, chunkCombos, observedValues, inWindow, joinChunk,
      normalizeChunk, hn, minuteFloor, listMean, aggDemoRows, aggDemoJobs,
      aggDemoRow0, List.dedup_cons_of_mem, List.dedup_cons_of_not_mem, List.filter]
  have hm : aggDemoRow0 ∈ processChunk aggDemoRows aggDemoJobs := by
    rw [he]
    exact List.mem_singleton_self _
  exact ⟨hm, aggUniquePerChunk.2 aggDemoRows aggDemoJobs aggDemoRow0 hm "cpuuser" (by simp)⟩

/-- C1 counterexample: with a chunk size of one row, the two rows of
`aggDemoRows` land in different chunks, and the run emits two output rows
sharing the (jid, host, time) triple ("job1", "h1", minute 0) — the
per-run uniqueness stated in the claim fails. -/
theorem aggDuplicateAcrossChunks :
    (runOutput 1 aggDemoRows aggDemoJobs).map (fun r => (r.jid, r.host, r.time)) =
      [("job1", "h1", 0), ("job1", "h1", 0)] ∧
    ¬ (runOutput 1 aggDemoRows aggDemoJobs).Pairwise
        (fun a b => ¬(a.jid = b.jid ∧ a.host = b.host ∧ a.time = b.time)) := by
  have hn : normalizeJobId "1" = "job1" := by decide
  have he : runOutput 1 aggDemoRows aggDemoJobs =
      [ { jid := "job1", host := "h1", time := 0, valueCpuuser := some 50,
          valueGpu := none, valueMemused := none, valueMemusedMinusDiskcache := none,
          valueNfs := none, valueBlock := none },
        { jid := "job1", host := "h1", time := 0, valueCpuuser := none,
          valueGpu := none, valueMemused := none, valueMemusedMinusDiskcache := none,
          valueNfs := none, valueBlock := some 1 } ] := by
    simp [runOutput, fileChunks, fileChunksAux, processChunk, chunkCombos,
      observedValues, inWindow, joinChunk, normalizeChunk, hn, minuteFloor,
      listMean, aggDemoRows, aggDemoJobs, List.dedup_cons_of_mem,
      List.dedup_cons_of_not_mem, List.filter]
  rw [he]
  refine ⟨rfl, fun hp => ?_⟩
  exact (List.pairwise_cons.mp hp).1 _ (List.mem_singleton_self _) ⟨rfl, rfl, rfl⟩

/-! ## Stage mover, step-2 `receiver.py` (signal view) and step-3
`receiver.py` `move_file_safely` (content view) -/

/-- Signal-level state of one daily key at the step-2 receiver: the mtimes
of the `complete` and `transferred` signals (`none` = absent), whether the
server source file and the local destination file exist, and a clock that
advances monotonically (mtimes of existing signals never exceed it). -/
structure SigState where
  clock : ℕ
  completeM : Option ℕ
  transferredM : Option ℕ
  sourceExists : Bool
  destExists : Bool
deriving DecidableEq, Repr

/-- The effect of a successful `transfer_file` call on the key: the
destination is written, the `transferred` signal is touched at the current
clock, the `complete` signal is removed, and the server source file is
deleted. -/
def transferAct (s : SigState) : SigState :=
  { clock := s.clock + 1, completeM := none, transferredM := some s.clock,
    sourceExists := false, destExists := true }

/-- One polling cycle of the step-2 receiver for one daily key, composing
`find_completed_files` and `transfer_file`: no `complete` signal means
nothing to do; with a `complete` signal and no `transferred` signal the
file is transferred when the source exists; with both signals, a
`complete` newer than `transferred` is a stale transfer — the old
`transferred` signal is removed and the file re-transferred — while an
older-or-equal `complete` is skipped. -/
def receiverCycle (s : SigState) : SigState :=
  match s.completeM, s.transferredM with
  | none, _ => { s with clock := s.clock + 1 }
  | some _, none =>
      if s.sourceExists then transferAct s else { s with clock := s.clock + 1 }
  | some cm, some tm =>
      if tm < cm then
        if s.sourceExists then transferAct { s with transferredM := none }
        else { s with transferredM := none, clock := s.clock + 1 }
      else { s with clock := s.clock + 1 }

/-- The monotonicity invariant of the claim: whenever both signals exist,
the `transferred` signal is at least as new as the `complete` signal. -/
def SigInv (s : SigState) : Prop :=
  ∀ tm cm : ℕ, s.transferredM = some tm → s.completeM = some cm → cm ≤ tm

/-- Helper: every receiver cycle re-establishes the invariant — the only
branch that keeps both signals is the one where `complete` is not newer. -/
theorem sigInv_receiverCycle (s : SigState) : SigInv (receiverCycle s) := by
  unfold SigInv receiverCycle
  split
  · intro tm cm h1 h2
    simp_all
  · split
    · intro tm cm h1 h2
      simp [transferAct] at h2
    · intro tm cm h1 h2
      simp_all
  · split
    · split
      · intro tm cm h1 h2
        simp [transferAct] at h2
      · intro tm cm h1 h2
        simp_all
    · intro tm cm h1 h2
      simp_all

/-- C9: a `complete` signal newer than a pre-existing `transferred` signal
is treated as a stale transfer: the receiver removes the old `transferred`
signal, re-transfers the file, and re-emits `transferred` at the current
clock — at least as new as the `complete` signal it answers; and after any
positive number of receiver cycles, whenever both signals exist,
mtime(transferred) ≥ mtime(complete). -/
theorem staleRetransferMonotone :
    (∀ (s : SigState) (cm tm : ℕ), s.completeM = some cm → s.transferredM = some tm →
      tm < cm → s.sourceExists = true →
      receiverCycle s = { clock := s.clock + 1, completeM := none,
                          transferredM := some s.clock, sourceExists := false,
                          destExists := true } ∧
      (cm ≤ s.clock → ∀ t : ℕ, (receiverCycle s).transferredM = some t → cm ≤ t)) ∧
    (∀ (s : SigState) (n : ℕ), 1 ≤ n → SigInv (receiverCycle^[n] s)) := by
  constructor
  · intro s cm tm hc ht hlt hsrc
    have hr : receiverCycle s = { clock := s.clock + 1, completeM := none,
                                  transferredM := some s.clock, sourceExists := false,
                                  destExists := true } := by
      unfold receiverCycle
      rw [hc, ht]
      simp [hlt, hsrc, transferAct]
    refine ⟨hr, fun hcl t hts => ?_⟩
    rw [hr] at hts
    simp at hts
    omega
  · intro s n hn
    induction n with
    | zero => omega
    | succ m _ =>
      rw [Function.iterate_succ_apply']
      exact sigInv_receiverCycle _

/-- Witness for `staleRetransferMonotone`: 2016-11-03 with complete signal
at mtime 4 newer than transferred at mtime 2, clock 5, source present. -/
theorem staleRetransferMonotoneWitness :
    (({ clock := 5, completeM := some 4, transferredM := some 2,
        sourceExists := true, destExists := false } : SigState).completeM = some 4 ∧
      ({ clock := 5, completeM := some 4, transferredM := some 2,
         sourceExists := true, destExists := false } : SigState).transferredM = some 2 ∧
      2 < 4) ∧
    receiverCycle { clock := 5, completeM := some 4, transferredM := some 2,
                    sourceExists := true, destExists := false } =
      { clock := 6, completeM := none, transferredM := some 5,
        sourceExists := false, destExists := true } ∧
    SigInv (receiverCycle^[1] { clock := 5, completeM := some 4, transferredM := some 2,
                                sourceExists := true, destExists := false }) := by
  refine ⟨⟨rfl, rfl, by omega⟩, ?_, ?_⟩
  · exact (staleRetransferMonotone.1 _ 4 2 rfl rfl (by omega) rfl).1
  · exact staleRetransferMonotone.2 _ 1 (by omega)

/-- Content-level state of one relocated file: contents of the source
path, the temporary destination and the final destination. -/
structure MoveState where
  src : Option String
  tmp : Option String
  dst : Option String
deriving DecidableEq, Repr

/-- The MD5 digest, modelled as the identity on contents (an injective
digest; collisions are outside the model). -/
def md5Digest (s : String) : String := s

/-- Embeds `move_file_safely` of step-3 `receiver.py`: hash the source,
copy to the temporary destination (`copied` is what lands there — equal to
`source` for a faithful copy, different for a corrupted one), compare
sizes, compare digests; on either mismatch unlink the temporary file and
abort with the source preserved; on success rename the temporary file to
the destination and only then delete the source. -/
def moveFileSafely (source copied : String) : Bool × MoveState :=
  let sourceHash := md5Digest source
  let afterCopy : MoveState := { src := some source, tmp := some copied, dst := none }
  if copied.length ≠ source.length then
    (false, { afterCopy with tmp := none })
  else if md5Digest copied ≠ sourceHash then
    (false, { afterCopy with tmp := none })
  else
    (true, { src := none, tmp := none, dst := some copied })

/-- Embeds the fresh-transfer path of `transfer_file` in step-2
`receiver.py`: `shutil.copy2` to the temporary name, `os.rename` to the
final name, then deletion of the input files and of the server source —
with no size or checksum comparison anywhere. -/
def transferFileStep2 (_source copied : String) : Bool × MoveState :=
  (true, { src := none, tmp := none, dst := some copied })

/-- C6 counterexample: the step-2 stage mover relocates a file whose
destination copy differs from the source, reports success and deletes the
source anyway — no checksum is computed or verified, so the claim fails
for this mover. -/
theorem step2TransferNoVerification :
    (transferFileStep2 "data" "corrupt").1 = true ∧
    (transferFileStep2 "data" "corrupt").2 =
      { src := none, tmp := none, dst := some "corrupt" } ∧
    ("corrupt" : String) ≠ "data" :=
  ⟨rfl, rfl, by decide⟩

/-- C6 amended: the step-3 receiver's `move_file_safely` computes the
source digest before the transfer and verifies the destination copy before
deleting the source — any mismatching copy aborts with the partial
destination file removed and the source preserved, and success implies the
destination holds the source content with the source deleted; the step-2
receiver's `transfer_file` performs no such verification. -/
theorem moveFileSafelyVerifies :
    (∀ source copied : String, copied ≠ source →
      moveFileSafely source copied =
        (false, { src := some source, tmp := none, dst := none })) ∧
    (∀ source copied : String, (moveFileSafely source copied).1 = true →
      (moveFileSafely source copied).2 =
        { src := none, tmp := none, dst := some source }) := by
  constructor
  · intro source copied h
    by_cases hl : copied.length = source.length
    · simp [moveFileSafely, md5Digest, hl, h]
    · simp [moveFileSafely, md5Digest, hl]
  · intro source copied h
    by_cases hl : copied.length = source.length
    · by_cases hd : copied = source
      · subst hd
        simp [moveFileSafely, md5Digest]
      · simp [moveFileSafely, md5Digest, hl, hd] at h
    · simp [moveFileSafely, md5Digest, hl] at h

/-- Witness for `moveFileSafelyVerifies`: a corrupted copy of "data" as
"datX" aborts with the source preserved; a faithful copy succeeds and
lands "data" at the destination. -/
theorem moveFileSafelyVerifiesWitness :
    (("datX" : String) ≠ "data" ∧
      moveFileSafely "data" "datX" =
        (false, { src := some "data", tmp := none, dst := none })) ∧
    ((moveFileSafely "data" "data").1 = true ∧
      (moveFileSafely "data" "data").2 =
        { src := none, tmp := none, dst := some "data" }) := by
  refine ⟨⟨by decide, moveFileSafelyVerifies.1 "data" "datX" (by decide)⟩, ?_, ?_⟩
  · decide
  · exact moveFileSafelyVerifies.2 "data" "data" (by decide)

/-! ## Retrying downloader (step-1 `hpc_transformer.py` `FileDownloader`,
`download_folder_files`; `http_extractor.py` `_download_folder_files`) -/

/-- Result of `FileDownloader.download_file`: the returned boolean and the
destination file content afterwards (`none` = file absent). -/
structure DlResult where
  ok : Bool
  file : Option String
deriving DecidableEq, Repr

/-- Whether an attempt outcome is a non-empty completed body. -/
def attemptOk : Option String → Bool
  | some body => decide (body ≠ "")
  | none => false

/-- The retry loop of `download_file` over the planned attempt outcomes:
`none` models an HTTP/transport error raised before the body write (the
destination is untouched), `some body` a completed write (`open(...,'wb')`
creates or truncates the file, which then holds `body`).  The size check
`os.path.getsize(local_path) > 0` turns an empty write into a raised
exception: the attempt counts as failed and is retried, and nothing
removes the file. -/
def downloadFileAux : List (Option String) → Option String → DlResult
  | [], file => { ok := false, file := file }
  | a :: rest, file =>
    match a with
    | none => downloadFileAux rest file
    | some body =>
      if body = "" then downloadFileAux rest (some "")
      else { ok := true, file := some body }

/-- `download_file` with its `max_retries = 3` attempts. -/
def downloadFile (attempts : List (Option String)) (initial : Option String) : DlResult :=
  downloadFileAux (attempts.take 3) initial

/-- `HpcDataTransformer.download_folder_files`: success iff every required
file's download returned True (`success_count == len(required_files)`). -/
def downloadFolderFiles (tasks : List (List (Option String))) : Bool :=
  tasks.all fun t => (downloadFile t none).ok

/-- `HttpExtractor._download_folder_files`: success iff at least one
download returned True (`return success_count > 0`). -/
def httpDownloadFolderFiles (tasks : List (List (Option String))) : Bool :=
  tasks.any fun t => (downloadFile t none).ok

/-- Helper: the download succeeds exactly when some attempt yields a
non-empty body. -/
theorem downloadFileAux_ok (l : List (Option String)) (f : Option String) :
    (downloadFileAux l f).ok = l.any attemptOk := by
  induction l generalizing f with
  | nil => rfl
  | cons a rest ih =>
    cases a with
    | none => simp [downloadFileAux, attemptOk, ih]
    | some body =>
      by_cases hb : body = ""
      · subst hb
        simp [downloadFileAux, attemptOk, ih]
      · simp [downloadFileAux, attemptOk, hb]

/-- Helper: a successful download leaves a non-empty file. -/
theorem downloadFileAux_ok_file (l : List (Option String)) (f : Option String)
    (h : (downloadFileAux l f).ok = true) :
    ∃ body : String, (downloadFileAux l f).file = some body ∧ body ≠ "" := by
  induction l generalizing f with
  | nil => simp [downloadFileAux] at h
  | cons a rest ih =>
    cases a with
    | none => exact ih f h
    | some body =>
      by_cases hb : body = ""
      · subst hb
        simp only [downloadFileAux, if_pos rfl] at h ⊢
        exact ih (some "") h
      · exact ⟨body, by simp [downloadFileAux, hb], hb⟩

/-- Helper: a failed download leaves either the initial state or a
zero-byte file — the file is never removed. -/
theorem downloadFileAux_fail_file (l : List (Option String)) (f : Option String)
    (h : (downloadFileAux l f).ok = false) :
    (downloadFileAux l f).file = f ∨ (downloadFileAux l f).file = some "" := by
  induction l generalizing f with
  | nil => exact Or.inl rfl
  | cons a rest ih =>
    cases a with
    | none => exact ih f h
    | some body =>
      by_cases hb : body = ""
      · subst hb
        simp only [downloadFileAux, if_pos rfl] at h ⊢
        rcases ih (some "") h with h1 | h1
        · exact Or.inr h1
        · exact Or.inr h1
      · simp [downloadFileAux, hb] at h

/-- C7 amended: a download succeeds iff one of the three attempts writes a
non-empty body, success leaves a non-empty file, failure leaves the
destination untouched or holding a zero-byte file (never removed);
`download_folder_files` of `hpc_transformer.py` reports success iff every
required file's download succeeded, while `_download_folder_files` of
`http_extractor.py` reports success iff at least one download succeeded. -/
theorem downloadReportedStates :
    (∀ (attempts : List (Option String)) (initial : Option String),
      (downloadFile attempts initial).ok = (attempts.take 3).any attemptOk) ∧
    (∀ (attempts : List (Option String)) (initial : Option String),
      (downloadFile attempts initial).ok = true →
      ∃ body : String, (downloadFile attempts initial).file = some body ∧ body ≠ "") ∧
    (∀ (attempts : List (Option String)) (initial : Option String),
      (downloadFile attempts initial).ok = false →
      (downloadFile attempts initial).file = initial ∨
        (downloadFile attempts initial).file = some "") ∧
    (∀ tasks : List (List (Option String)),
      downloadFolderFiles tasks = true ↔
        ∀ t ∈ tasks, (downloadFile t none).ok = true) ∧
    (∀ tasks : List (List (Option String)),
      httpDownloadFolderFiles tasks = true ↔
        ∃ t ∈ tasks, (downloadFile t none).ok = true) := by
  refine ⟨fun attempts initial => downloadFileAux_ok _ _,
    fun attempts initial => downloadFileAux_ok_file _ _,
    fun attempts initial => downloadFileAux_fail_file _ _,
    fun tasks => ?_, fun tasks => ?_⟩
  · simp [downloadFolderFiles, List.all_eq_true]
  · simp [httpDownloadFolderFiles, List.any_eq_true]

/-- Witness for `downloadReportedStates`: a download whose single non-empty
attempt is "data" succeeds with the file holding "data"; three empty
attempts fail leaving the zero-byte file. -/
theorem downloadReportedStatesWitness :
    ((downloadFile [some "data"] none).ok = true ∧
      ∃ body : String, (downloadFile [some "data"] none).file = some body ∧ body ≠ "") ∧
    ((downloadFile [some "", some "", some ""] none).ok = false ∧
      ((downloadFile [some "", some "", some ""] none).file = none ∨
        (downloadFile [some "", some "", some ""] none).file = some "")) :=
  ⟨⟨by decide, downloadReportedStates.2.1 [some "data"] none (by decide)⟩,
    ⟨by decide, downloadReportedStates.2.2.1 [some "", some "", some ""] none (by decide)⟩⟩

/-- C7 counterexample: three attempts that each write an empty body leave
the download failed with the zero-byte destination file still on disk
(the claim says it is removed), and the ETL-pipeline folder download
reports success although a required file is zero-byte: one task delivering
"data" and one delivering only empty bodies yield `True`. -/
theorem zeroByteFileNotRemoved :
    (downloadFile [some "", some "", some ""] none).ok = false ∧
    (downloadFile [some "", some "", some ""] none).file = some "" ∧
    (downloadFile [some "", some "", some ""] none).file ≠ none ∧
    httpDownloadFolderFiles [[some "data"], [some "", some "", some ""]] = true := by
  refine ⟨by decide, by decide, by decide, by decide⟩

/-! ## Host-list parsing (step-2 `parse_host_list`) and cleanup (step-3
`transform_dataframe` host_list branch)

The regex operations are embedded as direct left-to-right scanners with
the leftmost, greedy semantics of the engines the source uses; Python
string helpers (`strip`, `split`) are embedded over character lists. -/

/-- The opening-brace character. -/
def openBraceChar : Char := Char.ofNat 123

/-- The closing-brace character. -/
def closeBraceChar : Char := Char.ofNat 125

/-- The separator class of the token regex of `parse_host_list`: the
complement of `[^\s/+]`. -/
def isSepChar (c : Char) : Bool := c.isWhitespace || c = '/' || c = '+'

/-- ASCII uppercase letter (the `[A-Z]` class). -/
def isUpperAZ (c : Char) : Bool := 'A' ≤ c && c ≤ 'Z'

/-- ASCII digit (the `\d` class on ASCII input). -/
def isDigit09 (c : Char) : Bool := '0' ≤ c && c ≤ '9'

/-- Embeds `re.findall(r'([^\s/+]+)(?:/\d+)?', s)`: scanning left to
right, a match captures a maximal run of non-separator characters and then
consumes an optional slash followed by digits; a position that cannot
start a match is skipped.  Fuel bounds the scan by the input length. -/
def findTokensAux : ℕ → List Char → List String
  | 0, _ => []
  | _, [] => []
  | fuel + 1, c :: rest =>
    if isSepChar c then findTokensAux fuel rest
    else
      let run := (c :: rest).takeWhile fun x => !isSepChar x
      let rest1 := (c :: rest).dropWhile fun x => !isSepChar x
      match rest1 with
      | '/' :: d :: rest2 =>
        if isDigit09 d then
          run.asString :: findTokensAux fuel ((d :: rest2).dropWhile isDigit09)
        else
          run.asString :: findTokensAux fuel rest1
      | _ => run.asString :: findTokensAux fuel rest1

/-- The token list of a host string. -/
def findTokens (s : String) : List String :=
  findTokensAux (s.data.length + 1) s.data

/-- Embeds Python `str.strip()`: remove whitespace from both ends. -/
def pyStrip (s : String) : String :=
  ((s.data.dropWhile Char.isWhitespace).reverse.dropWhile Char.isWhitespace).reverse.asString

/-- Embeds Python `str.split(sep)` for a one-character separator. -/
def splitCharAux (sep : Char) : ℕ → List Char → List (List Char)
  | 0, l => [l]
  | _, [] => [[]]
  | fuel + 1, l =>
    let pre := l.takeWhile fun x => !(x == sep)
    let rest := l.dropWhile fun x => !(x == sep)
    match rest with
    | [] => [pre]
    | _ :: t => pre :: splitCharAux sep fuel t

/-- `str.split(sep)` on a string. -/
def splitChar (sep : Char) (s : String) : List String :=
  (splitCharAux sep (s.data.length + 1) s.data).map List.asString

/-- Strict code-point order on strings (Python string comparison). -/
def strLtb : List Char → List Char → Bool
  | [], [] => false
  | [], _ :: _ => true
  | _ :: _, [] => false
  | a :: as, b :: bs => if a < b then true else if b < a then false else strLtb as bs

/-- Insert into an ascending list (for Python `sorted`). -/
def insertStr (r : String) : List String → List String
  | [] => [r]
  | x :: xs => if strLtb r.data x.data then r :: x :: xs else x :: insertStr r xs

/-- Python `sorted` on a list of strings. -/
def sortStrs (l : List String) : List String := l.foldr insertStr []

/-- Embeds `extract_nodes` inside `parse_host_list` of step-2
`consumer.py`: tokenize with the findall regex, fall back to splitting on
"+" (or taking the head before "/") when no token matched, then strip,
drop empties, deduplicate, sort, suffix each node with "_C" and wrap the
comma-joined list in braces; `None` when nothing remains. -/
def extractNodes (hostStr : String) : Option String :=
  let rawNodes := findTokens hostStr
  let rawNodes :=
    if rawNodes.isEmpty && hostStr.data.contains '+' then
      ((splitChar '+' hostStr).filter fun p => !(pyStrip p).data.isEmpty).map fun p =>
        pyStrip ((splitChar '/' p).headD "")
    else if rawNodes.isEmpty then
      if !hostStr.data.contains openBraceChar && !hostStr.data.contains closeBraceChar then
        let cand := pyStrip ((splitChar '/' hostStr).headD "")
        if cand.data.isEmpty then [] else [cand]
      else []
    else rawNodes
  if rawNodes.isEmpty then none
  else
    let uniq := sortStrs ((rawNodes.map pyStrip).filter fun n => !n.data.isEmpty).dedup
    if uniq.isEmpty then none
    else some ([openBraceChar].asString ++
      String.intercalate "," (uniq.map fun n => n ++ "_C") ++ [closeBraceChar].asString)

/-- The element function of `parse_host_list`: null in, null out. -/
def parseHostList : Option String → Option String
  | none => none
  | some s => extractNodes s

/-- At a given position, the fragment `[A-Z]+\d+` matches a maximal run of
uppercase letters followed by a maximal run of digits (at least one of
each); returns the matched characters and the remainder. -/
def hostTokenAt (l : List Char) : Option (List Char × List Char) :=
  let ls := l.takeWhile isUpperAZ
  if ls.isEmpty then none
  else
    let r1 := l.dropWhile isUpperAZ
    let ds := r1.takeWhile isDigit09
    if ds.isEmpty then none
    else some (ls ++ ds, r1.dropWhile isDigit09)

/-- Embeds `str.replace_all(r"([A-Z]+\d+)_C", "${1}")`: rewrite every
hostname token followed by "_C" to the bare token. -/
def stripCSuffixAux : ℕ → List Char → List Char
  | 0, l => l
  | _, [] => []
  | fuel + 1, c :: rest =>
    match hostTokenAt (c :: rest) with
    | some (tok, '_' :: 'C' :: rest2) => tok ++ stripCSuffixAux fuel rest2
    | _ => c :: stripCSuffixAux fuel rest

/-- Embeds `str.replace_all(r"([A-Z]+\d+)", "${1}_C")`: append "_C" to
every hostname token. -/
def addCSuffixAux : ℕ → List Char → List Char
  | 0, l => l
  | _, [] => []
  | fuel + 1, c :: rest =>
    match hostTokenAt (c :: rest) with
    | some (tok, rest2) => tok ++ '_' :: 'C' :: addCSuffixAux fuel rest2
    | none => c :: addCSuffixAux fuel rest

/-- After a leading `[{,]` character: the fragment `\s*-\d+(_C)?\s*,?`;
returns the remainder after the match, `none` when the fragment does not
match here. -/
def negEntryTail (l : List Char) : Option (List Char) :=
  match l.dropWhile Char.isWhitespace with
  | '-' :: r2 =>
    let ds := r2.takeWhile isDigit09
    if ds.isEmpty then none
    else
      let r3 := r2.dropWhile isDigit09
      let r4 := match r3 with
        | '_' :: 'C' :: t => t
        | _ => r3
      let r5 := r4.dropWhile Char.isWhitespace
      some (match r5 with
        | ',' :: t => t
        | _ => r5)
  | _ => none

/-- Embeds `str.replace_all(r"[{,]\s*-\d+(_C)?\s*,?", ",")`: every match —
including its leading brace or comma — is replaced by a single comma. -/
def removeNegMiddleAux : ℕ → List Char → List Char
  | 0, l => l
  | _, [] => []
  | fuel + 1, c :: rest =>
    if c = openBraceChar || c = ',' then
      match negEntryTail rest with
      | some rest2 => ',' :: removeNegMiddleAux fuel rest2
      | none => c :: removeNegMiddleAux fuel rest
    else c :: removeNegMiddleAux fuel rest

/-- Embeds `str.replace_all(r"^-\d+(_C)?\s*,?\s*", "")`: a negative entry
anchored at the start of the string is removed. -/
def removeNegStart (l : List Char) : List Char :=
  match l with
  | '-' :: r2 =>
    let ds := r2.takeWhile isDigit09
    if ds.isEmpty then l
    else
      let r3 := r2.dropWhile isDigit09
      let r4 := match r3 with
        | '_' :: 'C' :: t => t
        | _ => r3
      let r5 := r4.dropWhile Char.isWhitespace
      let r6 := match r5 with
        | ',' :: t => t
        | _ => r5
      r6.dropWhile Char.isWhitespace
  | _ => l

/-- Whether `\s*-\d+(_C)?\s*` consumes the whole remainder (the
end-anchored fragment after a comma). -/
def negToEnd (l : List Char) : Bool :=
  match l.dropWhile Char.isWhitespace with
  | '-' :: r2 =>
    let ds := r2.takeWhile isDigit09
    if ds.isEmpty then false
    else
      let r3 := r2.dropWhile isDigit09
      let r4 := match r3 with
        | '_' :: 'C' :: t => t
        | _ => r3
      (r4.dropWhile Char.isWhitespace).isEmpty
  | _ => false

/-- Embeds `str.replace_all(r",\s*-\d+(_C)?\s*$", "")`: a trailing
negative entry is removed together with its comma. -/
def removeNegEndAux : ℕ → List Char → List Char
  | 0, l => l
  | _, [] => []
  | fuel + 1, c :: rest =>
    if c = ',' && negToEnd rest then []
    else c :: removeNegEndAux fuel rest

/-- Embeds `str.replace_all(r",,+", ",")`: every run of two or more commas
collapses to one. -/
def collapseCommasAux : ℕ → List Char → List Char
  | 0, l => l
  | _, [] => []
  | fuel + 1, c :: rest =>
    match c, rest with
    | ',', ',' :: rest2 => ',' :: collapseCommasAux fuel (rest2.dropWhile fun x => x == ',')
    | _, _ => c :: collapseCommasAux fuel rest

/-- Embeds `str.replace_all(r"^,|,$", "")`: one leading and one trailing
comma are removed. -/
def trimCommas (l : List Char) : List Char :=
  let l1 := match l with
    | ',' :: t => t
    | _ => l
  match l1.reverse with
  | ',' :: t => t.reverse
  | _ => l1

/-- The host_list cleanup pipeline of `transform_dataframe` in step-3
`consumer.py`: the seven `replace_all` calls in source order. -/
def cleanHostList (s : String) : String :=
  let l1 := stripCSuffixAux (s.data.length + 1) s.data
  let l2 := addCSuffixAux (l1.length + 1) l1
  let l3 := removeNegMiddleAux (l2.length + 1) l2
  let l4 := removeNegStart l3
  let l5 := removeNegEndAux (l4.length + 1) l4
  let l6 := collapseCommasAux (l5.length + 1) l5
  (trimCommas l6).asString

/-- The published host_list value: the step-2 `parse_host_list` output run
through the step-3 cleanup (null passes through both). -/
def publishedHostList (execHost : Option String) : Option String :=
  (parseHostList execHost).map cleanHostList

/-- C2: evaluating the code at the specification's own example.  Step 2
keeps the "-1" token (the findall regex captures any non-separator run,
not only `[A-Z]+\d+` tokens) and emits "\x7b-1_C,NODE03_C,NODE12_C\x7d";
the step-3 removal regex `[{,]\s*-\d+(_C)?\s*,?` then consumes the opening
brace together with the negative entry, so the published value is
"NODE03_C,NODE12_C\x7d" and not the claimed "\x7bNODE03_C,NODE12_C\x7d". -/
theorem hostListSpecExampleDiverges :
    parseHostList (some "NODE12/0+NODE03/1+NODE12/2+-1/0") =
      some "\x7b-1_C,NODE03_C,NODE12_C\x7d" ∧
    publishedHostList (some "NODE12/0+NODE03/1+NODE12/2+-1/0") =
      some "NODE03_C,NODE12_C\x7d" ∧
    publishedHostList (some "NODE12/0+NODE03/1+NODE12/2+-1/0") ≠
      some "\x7bNODE03_C,NODE12_C\x7d" := by
  refine ⟨by decide, by decide, by decide⟩
